import Mathlib

/-!
Verification of the primitive-construction and metadata-validation module
(`torch/_prims/__init__.py`).  Pure metadata functions from the source are
translated into executable Lean definitions; helper utilities that live in
`torch._prims.utils` (not part of the excerpt) are modelled from the spec,
each marked with a doc comment starting `Modelled from the spec:`.
Python `assert` failures and `raise` statements are rendered as `Except`
errors, tagged with the error taxonomy of the spec where the spec
classifies the failing check.
-/

namespace TorchPrims

/-- Error kinds raised by validation.  Python raises `AssertionError` for the
bare asserts and `RuntimeError` in `_copy_to_meta`; the constructors follow the
spec's error taxonomy where it classifies the failing check, with
`assertionError` for asserts the spec leaves unnamed. -/
inductive PErr where
  | assertionError
  | indexError
  | shapeError
  | shapeMismatch
  | dtypeMismatch
  | deviceMismatch
  | castSafety
  | sizeMismatch
  | zeroDivision
  deriving DecidableEq, Repr

/-- Execution-target tag of a tensor. -/
inductive Device where
  | cpu
  | cuda
  deriving DecidableEq, Repr

/-- Element type tags (the torch dtypes used by the module). -/
inductive Dtype where
  | bool
  | uint8
  | int8
  | int16
  | int32
  | int64
  | float16
  | float32
  | float64
  | complex64
  | complex128
  deriving DecidableEq, Repr

/-- Numeric category of a dtype (Python type `bool`/`int`/`float`/`complex`). -/
inductive TypeCat where
  | boolean
  | integral
  | floating
  | complexCat
  deriving DecidableEq, Repr

/-- Modelled from the spec: position of a category in the promotion ordering
boolean < integral < floating < complex (spec 4.1, `higherType`). -/
def catRank : TypeCat → Nat
  | .boolean => 0
  | .integral => 1
  | .floating => 2
  | .complexCat => 3

/-- Modelled from the spec: `higherType(t1, t2)` returns the wider of two
numeric category types under the promotion ordering
boolean < integral < floating < complex (`utils.get_higher_type`,
`torch._prims.utils` is not part of the excerpt). -/
def get_higher_type (a b : TypeCat) : TypeCat :=
  if catRank a < catRank b then b else a

/-- Modelled from the spec: maps a dtype to its numeric category
(`utils.dtype_to_type`, not part of the excerpt). -/
def dtype_to_type : Dtype → TypeCat
  | .bool => .boolean
  | .uint8 => .integral
  | .int8 => .integral
  | .int16 => .integral
  | .int32 => .integral
  | .int64 => .integral
  | .float16 => .floating
  | .float32 => .floating
  | .float64 => .floating
  | .complex64 => .complexCat
  | .complex128 => .complexCat

/-- Modelled from the spec: the Metadata Descriptor — shape, strides, dtype and
device of a (hypothetical) tensor, with `len(strides) == len(shape)` for every
descriptor the source builds (`utils.TensorMeta`, not part of the excerpt).
Tensor-like arguments are modelled by the same record, since the metadata
functions only ever read these four properties of their tensor arguments. -/
structure TensorMeta where
  shape : List Nat
  strides : List Nat
  dtype : Dtype
  device : Device
  deriving DecidableEq, Repr

/-- Number of elements: the product of the dimension lengths
(`Tensor.numel`). -/
def TensorMeta.numel (t : TensorMeta) : Nat := t.shape.prod

/-- Modelled from the spec: `contiguousStridesFor(shape)` — row-major
(last-dimension-fastest) strides; empty for a rank-0 shape
(`utils.make_contiguous_strides_for`, not part of the excerpt). -/
def make_contiguous_strides_for : List Nat → List Nat
  | [] => []
  | _ :: rest => rest.prod :: make_contiguous_strides_for rest

/-- A Python scalar argument's type (`numbers.Number` instances). -/
inductive ScalarTy where
  | bool
  | int
  | float
  | complex
  deriving DecidableEq, Repr

/-- Torch dtype corresponding to a Python scalar type, used when a descriptor
is derived from a scalar. -/
def scalarDtype : ScalarTy → Dtype
  | .bool => .bool
  | .int => .int64
  | .float => .float64
  | .complex => .complex128

/-- Modelled from the spec: the descriptor derived from a scalar value — a
rank-0 descriptor on the default device whose dtype is the scalar's type
(spec 4.3: when no tensor-like argument is present the result descriptor is
derived from the first scalar value). -/
def scalar_meta (ty : ScalarTy) : TensorMeta :=
  ⟨[], [], scalarDtype ty, .cpu⟩

/-- An argument of an elementwise primitive: a tensor-like value or a Python
scalar. -/
inductive ElemArg where
  | tensor (t : TensorMeta)
  | number (ty : ScalarTy)
  deriving DecidableEq, Repr

/-- The tensor-like arguments, in order. -/
def tensorsOf (args : List ElemArg) : List TensorMeta :=
  args.filterMap fun a =>
    match a with
    | .tensor t => some t
    | .number _ => none

/-- The first-seen tensor-like argument, if any. -/
def firstTensor (args : List ElemArg) : Option TensorMeta :=
  (tensorsOf args).head?

/-- Modelled from the spec: `checkSameShape(*tensors)` fails with
`ShapeMismatchError` unless every tensor-like argument has identical shape,
scalars exempt (`utils.check_same_shape`, not part of the excerpt). -/
def check_same_shape (args : List ElemArg) : Except PErr Unit :=
  match (tensorsOf args).map TensorMeta.shape with
  | [] => .ok ()
  | s :: rest => if rest.all (· == s) then .ok () else .error .shapeMismatch

/-- Modelled from the spec: `checkSameDtype(*tensors)` fails with
`DtypeMismatchError` unless every tensor-like argument shares one dtype
(`utils.check_same_dtype`, not part of the excerpt). -/
def check_same_dtype (args : List ElemArg) : Except PErr Unit :=
  match (tensorsOf args).map TensorMeta.dtype with
  | [] => .ok ()
  | d :: rest => if rest.all (· == d) then .ok () else .error .dtypeMismatch

/-- Modelled from the spec: `checkSameDevice(*tensors, allowScalars)` fails
with `DeviceMismatchError` unless every tensor-like argument resides on one
device; scalar arguments are tolerated only when `allowScalars` is true
(`utils.check_same_device`, not part of the excerpt). -/
def check_same_device (args : List ElemArg) (allow_scalars : Bool) : Except PErr Unit :=
  if !allow_scalars && args.any (fun a =>
      match a with
      | .number _ => true
      | .tensor _ => false) then
    .error .deviceMismatch
  else
    match (tensorsOf args).map TensorMeta.device with
    | [] => .ok ()
    | d :: rest => if rest.all (· == d) then .ok () else .error .deviceMismatch

/-- Modelled from the spec: `validateIndex(shape, idx)` fails with
`IndexError` unless `0 <= idx < rank(shape)` (`utils.validate_idx`, not part
of the excerpt). -/
def validate_idx (shape : List Nat) (idx : Int) : Except PErr Unit :=
  if 0 ≤ idx ∧ idx < (shape.length : Int) then .ok () else .error .indexError

/-- Modelled from the spec: `validateExclusiveIndex(shape, idx)` fails unless
`0 <= idx <= rank(shape)` (`utils.validate_exclusive_idx`, not part of the
excerpt). -/
def validate_exclusive_idx (shape : List Nat) (idx : Int) : Except PErr Unit :=
  if 0 ≤ idx ∧ idx ≤ (shape.length : Int) then .ok () else .error .indexError

/-- Modelled from the spec: `validateDimLength(n)` fails unless `n` is a
non-negative integer (`utils.validate_dim_length`, not part of the excerpt). -/
def validate_dim_length (n : Int) : Except PErr Unit :=
  if 0 ≤ n then .ok () else .error .assertionError

/-- Return-category tag of a primitive (source `RETURN_TYPE`). -/
inductive RETURN_TYPE where
  | NEW
  | VIEW
  | INPLACE
  deriving DecidableEq, Repr

/-- Type-promotion policy of an elementwise primitive
(source `ELEMENTWISE_PRIM_TYPE_PROMOTION_KIND`). -/
inductive ELEMENTWISE_PRIM_TYPE_PROMOTION_KIND where
  | DEFAULT
  | ALWAYS_BOOL
  | COMPLEX_TO_FLOAT
  deriving DecidableEq, Repr

/-- Observable events of one call to the wrapper `_prim` produced by
`_make_prim`: dispatch to the torch-function protocol handler, a call of the
bound meta (validation) function, a call of the default aten backend. -/
inductive PrimEvent where
  | torchFunction
  | metaCall
  | implCall
  deriving DecidableEq, Repr

/-- Result of one call of the `_prim` wrapper: which collaborators were
invoked (in order), the final state of the mutable tensor arguments, and the
returned value or propagated exception. -/
structure PrimCallResult (σ ρ : Type) where
  events : List PrimEvent
  state : σ
  result : Except PErr ρ

/-- The call wrapper `_prim` built by `_make_prim`: if any argument
participates in the torch-function protocol the call is handed to
`handle_torch_function`; otherwise the meta function runs first (its result is
discarded, its exception propagates) and only then the default backend runs.
The state `σ` stands for the mutable tensor arguments; the meta function only
reads it, matching the source metas, while the handler and the backend may
replace it.  `hasTF` abstracts `has_torch_function(args)` (an external
collaborator). -/
def prim_call {σ ρ : Type} (hasTF : Bool) (handleTF : σ → σ × ρ)
    (meta : σ → Except PErr Unit) (impl_aten : σ → σ × ρ) (s : σ) :
    PrimCallResult σ ρ :=
  if hasTF then
    let r := handleTF s
    ⟨[.torchFunction], r.1, .ok r.2⟩
  else
    match meta s with
    | .error e => ⟨[.metaCall], s, .error e⟩
    | .ok _ =>
      let r := impl_aten s
      ⟨[.metaCall, .implCall], r.1, .ok r.2⟩

/-- The accumulation loop of `_elementwise_meta`: walks the arguments carrying
`strides` (first-seen tensor's strides), `tensor` (first-seen tensor) and
`number` (first-seen scalar), returning early with contiguous strides as soon
as some tensor's strides differ from the first-seen tensor's; past the end it
applies the zero-stride fallback and otherwise inherits the first-seen tensor
wholesale (`TensorMeta(tensor)`), or derives the descriptor from the first
scalar. -/
def elementwise_loop : List ElemArg → Option (List Nat) → Option TensorMeta →
    Option ScalarTy → Except PErr TensorMeta
  | [], _, tensor?, number? =>
    match tensor? with
    | some t =>
      if 0 ∈ t.strides ∧ 0 < t.numel then
        .ok ⟨t.shape, make_contiguous_strides_for t.shape, t.dtype, t.device⟩
      else
        .ok t
    | none =>
      match number? with
      | some n => .ok (scalar_meta n)
      -- unreachable from `_elementwise_meta`: `TensorMeta(None)` is a type
      -- error in the source
      | none => .error .assertionError
  | arg :: rest, strides?, tensor?, number? =>
    match arg with
    | .tensor t =>
      let strides := strides?.getD t.strides
      let tensor := tensor?.getD t
      if t.strides ≠ strides then
        .ok ⟨t.shape, make_contiguous_strides_for t.shape, t.dtype, t.device⟩
      else
        elementwise_loop rest (some strides) (some tensor) number?
    | .number n =>
      elementwise_loop rest strides? tensor? (some (number?.getD n))

/-- Translation of `_elementwise_meta` (the `type_promotion` parameter is
bound but, as in the source body, unused). -/
def _elementwise_meta (args : List ElemArg)
    (_type_promotion : ELEMENTWISE_PRIM_TYPE_PROMOTION_KIND) :
    Except PErr TensorMeta := do
  -- assert len(args) > 0
  if 0 < args.length then pure () else throw .assertionError
  check_same_device args true
  check_same_shape args
  check_same_dtype args
  elementwise_loop args none none none

/-- Which division the backend performs. -/
inductive DivMode where
  | trunc
  | true_div
  deriving DecidableEq, Repr

/-- Translation of `_div_aten`'s dispatch: `torch.div(..., "trunc")` exactly
when `isinstance(a, (bool, int))` — i.e. when the first argument is a Python
bool or int scalar — and `torch.true_divide` otherwise.  The numeric kernels
themselves are the external backend; only the selection is modelled. -/
def _div_aten (a _b : ElemArg) : DivMode :=
  match a with
  | .number .bool => .trunc
  | .number .int => .trunc
  | _ => .true_div

/-- The `reduce(_greater_than_reduce, broadcast_dimensions, -1)` check of
`_broadcast_in_dim_meta`: each entry must exceed the previous one (starting
from -1, hence be non-negative) and lie below `rank` (the length of the target
shape). -/
def ascending_check (rank : Nat) : List Int → Int → Except PErr Unit
  | [], _ => .ok ()
  | x :: rest, acc =>
    if acc < x ∧ x < (rank : Nat) then ascending_check rank rest x
    else .error .shapeError

/-- The broadcastability loop of `_broadcast_in_dim_meta`: for each original
dimension `idx` mapped to `new_idx`, `a.shape[idx] == 1` or
`a.shape[idx] == shape[new_idx]`.  Indexing is total (`getD`) because the
preceding asserts guarantee `idx < a.ndim = len(broadcast_dimensions)` and
`0 <= new_idx < len(shape)` whenever this loop runs. -/
def compat_check (ashape shape : List Nat) : List Int → Nat → Except PErr Unit
  | [], _ => .ok ()
  | d :: rest, idx =>
    if ashape.getD idx 0 = 1 ∨ ashape.getD idx 0 = shape.getD d.toNat 0 then
      compat_check ashape shape rest (idx + 1)
    else .error .shapeError

/-- The stride-construction loop of `_broadcast_in_dim_meta`: walks the
positions of the new shape; a mapped position receives the original stride at
`original_idx` (which counts how many mapped positions were already emitted),
an unmapped position receives stride 0.  Indexing is total (`getD`) because
`original_idx` never exceeds `len(broadcast_dimensions) = a.ndim`, the length
of `a.stride()` for a real tensor. -/
def bcast_strides_go (astrides : List Nat) (bdims : List Int) :
    List Nat → Nat → List Nat
  | [], _ => []
  | j :: rest, oi =>
    if (j : Int) ∈ bdims then
      astrides.getD oi 0 :: bcast_strides_go astrides bdims rest (oi + 1)
    else
      0 :: bcast_strides_go astrides bdims rest oi

/-- Translation of `_broadcast_in_dim_meta`. -/
def _broadcast_in_dim_meta (a : TensorMeta) (shape : List Nat)
    (broadcast_dimensions : List Int) : Except PErr TensorMeta := do
  -- assert a.ndim == len(broadcast_dimensions)
  if a.shape.length = broadcast_dimensions.length then pure ()
  else throw .shapeError
  -- assert len(shape) >= a.ndim
  if a.shape.length ≤ shape.length then pure () else throw .shapeError
  ascending_check shape.length broadcast_dimensions (-1)
  compat_check a.shape shape broadcast_dimensions 0
  let new_strides := bcast_strides_go a.strides broadcast_dimensions
    (List.range shape.length) 0
  return ⟨shape, new_strides, a.dtype, a.device⟩

/-- The loop of `_collapse_view_meta` over `range(start, end)`: for every
index except the last, asserts the stride-nesting condition
`strides[idx] == strides[idx+1] * shape[idx+1]`, and accumulates
`length = length * shape[idx]` and `stride = stride * strides[idx]`
(the source multiplies ALL the strides together).  `eNat` is `end`;
out-of-range indexing is a Python `IndexError`. -/
def collapse_accum (shape strides : List Nat) (eNat : Nat) :
    List Nat → Nat → Nat → Except PErr (Nat × Nat)
  | [], length, stride => .ok (length, stride)
  | idx :: rest, length, stride => do
    if idx ≠ eNat - 1 then
      match strides.get? idx, strides.get? (idx + 1), shape.get? (idx + 1) with
      | some si, some si1, some shi1 =>
        if si = si1 * shi1 then pure () else throw .shapeError
      | _, _, _ => throw .indexError
    else pure ()
    match shape.get? idx, strides.get? idx with
    | some shi, some sti =>
      collapse_accum shape strides eNat rest (length * shi) (stride * sti)
    | _, _ => throw .indexError

/-- Translation of `_collapse_view_meta`.  Note two slips kept faithfully from
the source: the collapsed stride is the PRODUCT of the strides over
`[start, end)` rather than the innermost stride, and the tail of
`new_strides` is `shape[end:]` rather than `strides[end:]`. -/
def _collapse_view_meta (a : TensorMeta) (start endI : Int) :
    Except PErr TensorMeta := do
  let shape := a.shape
  let strides := a.strides
  validate_idx shape start
  validate_exclusive_idx shape endI
  -- assert end > start
  if endI > start then pure () else throw .shapeError
  let s := start.toNat
  let e := endI.toNat
  let r ← collapse_accum shape strides e (List.range' s (e - s)) 1 1
  let new_shape := shape.take s ++ [r.1] ++ shape.drop e
  let new_strides := strides.take s ++ [r.2] ++ shape.drop e
  return ⟨new_shape, new_strides, a.dtype, a.device⟩

/-- The construction loop of `_split_dim_meta`, kept faithful to the source's
`for idx in a.shape:` — it iterates over the VALUES of the shape, not over its
index positions, and then indexes `a.shape` and `a.stride()` with those
values, which raises `IndexError` whenever a shape entry is not itself a valid
dimension index. -/
def split_loop (a : TensorMeta) (dim : Int) (outer inner : Nat) :
    List Nat → List Nat → List Nat → Except PErr TensorMeta
  | [], new_shape, new_strides => .ok ⟨new_shape, new_strides, a.dtype, a.device⟩
  | idx :: rest, new_shape, new_strides =>
    if (idx : Int) = dim then
      match a.strides.get? idx with
      | some st =>
        split_loop a dim outer inner rest (new_shape ++ [outer, inner])
          (new_strides ++ [st * inner, st])
      | none => .error .indexError
    else
      match a.shape.get? idx, a.strides.get? idx with
      | some sh, some st =>
        split_loop a dim outer inner rest (new_shape ++ [sh]) (new_strides ++ [st])
      | _, _ => .error .indexError

/-- Translation of `_split_dim_meta`.  The source computes
`_inner_length = a.shape[dim] / outer_length` with Python float division and
asserts `int(_inner_length) == _inner_length`; this is modelled as exact
divisibility (equivalent for all dimension lengths below 2^53), with division
by zero as its own error. -/
def _split_dim_meta (a : TensorMeta) (dim : Int) (outer_length : Int) :
    Except PErr TensorMeta := do
  validate_idx a.shape dim
  validate_dim_length outer_length
  let L := a.shape.getD dim.toNat 0
  if outer_length = 0 then throw .zeroDivision
  -- assert inner_length == _inner_length (the split must be exact)
  if (L : Int) % outer_length = 0 then pure () else throw .shapeError
  let inner : Nat := L / outer_length.toNat
  split_loop a dim outer_length.toNat inner a.shape [] []

/-- The inner `zip`-driven comparison loop of `_concatenate_meta` for one
tensor: pairs `(common_length, length)` from `zip(shape, tensor.shape)`
(truncating at the shorter rank), adds `length` into the accumulator at the
concatenation dimension and asserts equality elsewhere. -/
def concat_zip_loop (dim : Int) : List (Nat × Nat) → Nat → Nat → Except PErr Nat
  | [], _, acc => .ok acc
  | p :: rest, idx, acc =>
    if (idx : Int) = dim then concat_zip_loop dim rest (idx + 1) (acc + p.2)
    else if p.2 = p.1 then concat_zip_loop dim rest (idx + 1) acc
    else .error .shapeError

/-- The outer loop of `_concatenate_meta` over all tensors (the first tensor
included), threading the accumulated concat length. -/
def concat_loop (shape : List Nat) (dim : Int) :
    List TensorMeta → Nat → Except PErr Nat
  | [], acc => .ok acc
  | t :: rest, acc => do
    let acc2 ← concat_zip_loop dim (shape.zip t.shape) 0 acc
    concat_loop shape dim rest acc2

/-- Translation of `_concatenate_meta`. -/
def _concatenate_meta (tensors : List TensorMeta) (dim : Int) :
    Except PErr TensorMeta :=
  match tensors with
  -- assert len(tensors) > 0
  | [] => .error .assertionError
  | t0 :: _ => do
    check_same_dtype (tensors.map ElemArg.tensor)
    check_same_device (tensors.map ElemArg.tensor) false
    let shape := t0.shape
    validate_idx shape dim
    let concat_length ← concat_loop shape dim tensors 0
    let new_shape := shape.set dim.toNat concat_length
    return ⟨new_shape, make_contiguous_strides_for new_shape, t0.dtype, t0.device⟩

/-- Translation of `_copy_to_meta`: the cast-safety check (`RuntimeError` in
the source, `CastSafetyError` in the spec taxonomy) runs first, the
element-count check (`RuntimeError`, size mismatch) second, and the
destination `a` is returned on success. -/
def _copy_to_meta (a b : TensorMeta) : Except PErr TensorMeta :=
  let a_typ := dtype_to_type a.dtype
  let b_typ := dtype_to_type b.dtype
  if a_typ ≠ get_higher_type a_typ b_typ then .error .castSafety
  else if a.numel ≠ b.numel then .error .sizeMismatch
  else .ok a

/-- Modelled from the spec: `reductionOutputShape(shape, dims)` returns
`shape` with every dimension index in `dims` removed, preserving the relative
order of the remaining dimensions; fails if any index in `dims` is out of
range or repeated (`utils.compute_reduction_output_shape`, not part of the
excerpt). -/
def compute_reduction_output_shape (shape : List Nat) (dims : List Nat) :
    Except PErr (List Nat) :=
  if (∀ d ∈ dims, d < shape.length) ∧ dims.Nodup then
    .ok ((shape.enum.filter (fun p => decide (p.1 ∉ dims))).map Prod.snd)
  else .error .indexError

/-- Translation of `_reduction_meta`: the output dtype defaults to the input
dtype when `output_dtype` is `None`; the output shape removes the reduced
dimensions; the result descriptor lives on the input's device.  The source
passes no strides to `TensorMeta` (its docstring flags stride logic as
incorrect); the descriptor defaults to contiguous strides. -/
def _reduction_meta (inp : TensorMeta) (dims : List Nat)
    (output_dtype : Option Dtype) : Except PErr TensorMeta := do
  let odt := output_dtype.getD inp.dtype
  let oshape ← compute_reduction_output_shape inp.shape dims
  return ⟨oshape, make_contiguous_strides_for oshape, odt, inp.device⟩

/-- Translation of `_bool_return_reduction_meta`: a reduction meta with the
output dtype forced to boolean. -/
def _bool_return_reduction_meta (inp : TensorMeta) (dims : List Nat) :
    Except PErr TensorMeta :=
  _reduction_meta inp dims (some .bool)

/-- Meta function bound to the `sum` primitive (`output_dtype` left at its
`None` default). -/
def sum_meta (inp : TensorMeta) (dims : List Nat) : Except PErr TensorMeta :=
  _reduction_meta inp dims none

/-- Meta function bound to the `prod` primitive. -/
def prod_meta (inp : TensorMeta) (dims : List Nat) : Except PErr TensorMeta :=
  _reduction_meta inp dims none

/-- Meta function bound to the `amax` primitive. -/
def amax_meta (inp : TensorMeta) (dims : List Nat) : Except PErr TensorMeta :=
  _reduction_meta inp dims none

/-- Meta function bound to the `amin` primitive. -/
def amin_meta (inp : TensorMeta) (dims : List Nat) : Except PErr TensorMeta :=
  _reduction_meta inp dims none

/-- Meta function bound to the `all` primitive. -/
def all_meta (inp : TensorMeta) (dims : List Nat) : Except PErr TensorMeta :=
  _bool_return_reduction_meta inp dims

/-- Meta function bound to the `any` primitive. -/
def any_meta (inp : TensorMeta) (dims : List Nat) : Except PErr TensorMeta :=
  _bool_return_reduction_meta inp dims

/-- The stride rule of `_elementwise_meta` exactly as claim C2 words it: the
descriptor takes contiguous strides when some tensor argument's strides differ
from the first-seen tensor's, or when the first-seen tensor is EMPTY and has a
zero stride anywhere; otherwise it inherits the first-seen tensor's strides.
(Stated from the claim's words, for comparison with the source translation,
whose second condition is `tensor.numel() > 0` — nonempty.) -/
def claimedElementwiseStrides (args : List ElemArg) (first : TensorMeta) :
    List Nat :=
  if (∃ t ∈ tensorsOf args, t.strides ≠ first.strides)
      ∨ (first.numel = 0 ∧ 0 ∈ first.strides) then
    make_contiguous_strides_for first.shape
  else first.strides

/-!  Theorems.  -/

theorem except_pure {ε α : Type} (a : α) : (pure a : Except ε α) = Except.ok a := rfl

theorem except_bind_ok {ε α β : Type} (a : α) (f : α → Except ε β) :
    (Except.ok a >>= f) = f a := rfl

theorem except_bind_error {ε α β : Type} (e : ε) (f : α → Except ε β) :
    ((Except.error e : Except ε α) >>= f) = Except.error e := rfl

@[simp] theorem tensorsOf_nil : tensorsOf [] = [] := rfl

@[simp] theorem tensorsOf_cons_tensor (t : TensorMeta) (l : List ElemArg) :
    tensorsOf (.tensor t :: l) = t :: tensorsOf l := rfl

@[simp] theorem tensorsOf_cons_number (n : ScalarTy) (l : List ElemArg) :
    tensorsOf (.number n :: l) = tensorsOf l := rfl

/-- Success of `check_same_shape` means every tensor argument shares the
first tensor's shape. -/
theorem check_same_shape_forall (args : List ElemArg) (first : TensorMeta)
    (ts : List TensorMeta) (hts : tensorsOf args = first :: ts) :
    check_same_shape args = .ok () → ∀ t ∈ tensorsOf args, t.shape = first.shape := by
  intro hok t ht
  unfold check_same_shape at hok
  rw [hts] at hok ht
  simp only [List.map_cons] at hok
  by_cases hall : (ts.map TensorMeta.shape).all (· == first.shape)
  · rcases List.mem_cons.mp ht with rfl | hmem
    · rfl
    · exact eq_of_beq (List.all_eq_true.mp hall _ (List.mem_map_of_mem _ hmem))
  · rw [if_neg hall] at hok
    exact absurd hok (by simp)

/-- Success of `check_same_dtype` means every tensor argument shares the
first tensor's dtype. -/
theorem check_same_dtype_forall (args : List ElemArg) (first : TensorMeta)
    (ts : List TensorMeta) (hts : tensorsOf args = first :: ts) :
    check_same_dtype args = .ok () → ∀ t ∈ tensorsOf args, t.dtype = first.dtype := by
  intro hok t ht
  unfold check_same_dtype at hok
  rw [hts] at hok ht
  simp only [List.map_cons] at hok
  by_cases hall : (ts.map TensorMeta.dtype).all (· == first.dtype)
  · rcases List.mem_cons.mp ht with rfl | hmem
    · rfl
    · exact eq_of_beq (List.all_eq_true.mp hall _ (List.mem_map_of_mem _ hmem))
  · rw [if_neg hall] at hok
    exact absurd hok (by simp)

/-- Success of `check_same_device` (scalars allowed) means every tensor
argument shares the first tensor's device. -/
theorem check_same_device_forall (args : List ElemArg) (first : TensorMeta)
    (ts : List TensorMeta) (hts : tensorsOf args = first :: ts) :
    check_same_device args true = .ok () →
      ∀ t ∈ tensorsOf args, t.device = first.device := by
  intro hok t ht
  unfold check_same_device at hok
  simp only [Bool.not_true, Bool.false_and, Bool.false_eq_true, if_false] at hok
  rw [hts] at hok ht
  simp only [List.map_cons] at hok
  by_cases hall : (ts.map TensorMeta.device).all (· == first.device)
  · rcases List.mem_cons.mp ht with rfl | hmem
    · rfl
    · exact eq_of_beq (List.all_eq_true.mp hall _ (List.mem_map_of_mem _ hmem))
  · rw [if_neg hall] at hok
    exact absurd hok (by simp)

/-- Characterization of the elementwise accumulation loop once the first
tensor has been seen: with all later tensors agreeing with `first` on shape,
dtype and device, the result is the contiguous-strided descriptor exactly when
some tensor's strides disagree with `first`'s or `first` is a nonempty tensor
with a zero stride, and is `first` itself otherwise. -/
theorem elementwise_loop_some (first : TensorMeta) (rest : List ElemArg) :
    ∀ (nb : Option ScalarTy),
    (∀ t ∈ tensorsOf rest, t.shape = first.shape) →
    (∀ t ∈ tensorsOf rest, t.dtype = first.dtype) →
    (∀ t ∈ tensorsOf rest, t.device = first.device) →
    elementwise_loop rest (some first.strides) (some first) nb =
      .ok (if (∃ t ∈ tensorsOf rest, t.strides ≠ first.strides)
              ∨ (0 ∈ first.strides ∧ 0 < first.numel) then
            ⟨first.shape, make_contiguous_strides_for first.shape,
              first.dtype, first.device⟩
          else first) := by
  induction rest with
  | nil =>
    intro nb _ _ _
    by_cases hP : 0 ∈ first.strides ∧ 0 < first.numel <;>
      simp [elementwise_loop, hP]
  | cons a rest ih =>
    intro nb hsh hdt hdev
    cases a with
    | tensor t =>
      have hts : t.shape = first.shape := hsh t (by simp)
      have htd : t.dtype = first.dtype := hdt t (by simp)
      have htv : t.device = first.device := hdev t (by simp)
      by_cases hst : t.strides = first.strides
      · have hrec := ih nb (fun x hx => hsh x (by simp [hx]))
          (fun x hx => hdt x (by simp [hx])) (fun x hx => hdev x (by simp [hx]))
        have hcond : ((∃ x ∈ tensorsOf (.tensor t :: rest), x.strides ≠ first.strides)
              ∨ (0 ∈ first.strides ∧ 0 < first.numel))
            ↔ ((∃ x ∈ tensorsOf rest, x.strides ≠ first.strides)
              ∨ (0 ∈ first.strides ∧ 0 < first.numel)) := by
          simp [hst]
        rw [show elementwise_loop (.tensor t :: rest) (some first.strides)
              (some first) nb
            = elementwise_loop rest (some first.strides) (some first) nb by
          simp [elementwise_loop, hst]]
        rw [hrec, if_congr hcond rfl rfl]
      · have hcond : ((∃ x ∈ tensorsOf (.tensor t :: rest), x.strides ≠ first.strides)
              ∨ (0 ∈ first.strides ∧ 0 < first.numel)) := by
          exact Or.inl ⟨t, by simp, hst⟩
        rw [show elementwise_loop (.tensor t :: rest) (some first.strides)
              (some first) nb
            = .ok ⟨t.shape, make_contiguous_strides_for t.shape, t.dtype, t.device⟩ by
          simp [elementwise_loop, hst]]
        rw [if_pos hcond, hts, htd, htv]
    | number n =>
      have hrec := ih (some (nb.getD n)) hsh hdt hdev
      rw [show elementwise_loop (.number n :: rest) (some first.strides)
            (some first) nb
          = elementwise_loop rest (some first.strides) (some first)
              (some (nb.getD n)) by
        simp [elementwise_loop]]
      exact hrec

/-- Characterization of the elementwise accumulation loop from its initial
state, in terms of the first-seen tensor. -/
theorem elementwise_loop_none (first : TensorMeta) (args : List ElemArg) :
    ∀ (nb : Option ScalarTy),
    firstTensor args = some first →
    (∀ t ∈ tensorsOf args, t.shape = first.shape) →
    (∀ t ∈ tensorsOf args, t.dtype = first.dtype) →
    (∀ t ∈ tensorsOf args, t.device = first.device) →
    elementwise_loop args none none nb =
      .ok (if (∃ t ∈ tensorsOf args, t.strides ≠ first.strides)
              ∨ (0 ∈ first.strides ∧ 0 < first.numel) then
            ⟨first.shape, make_contiguous_strides_for first.shape,
              first.dtype, first.device⟩
          else first) := by
  induction args with
  | nil =>
    intro nb hfirst
    simp [firstTensor] at hfirst
  | cons a args ih =>
    intro nb hfirst hsh hdt hdev
    cases a with
    | tensor t =>
      have ht : t = first := by simpa [firstTensor] using hfirst
      subst ht
      have hrec := elementwise_loop_some t args nb
        (fun x hx => hsh x (by simp [hx])) (fun x hx => hdt x (by simp [hx]))
        (fun x hx => hdev x (by simp [hx]))
      have hcond : ((∃ x ∈ tensorsOf (.tensor t :: args), x.strides ≠ t.strides)
            ∨ (0 ∈ t.strides ∧ 0 < t.numel))
          ↔ ((∃ x ∈ tensorsOf args, x.strides ≠ t.strides)
            ∨ (0 ∈ t.strides ∧ 0 < t.numel)) := by
        simp
      rw [show elementwise_loop (.tensor t :: args) none none nb
          = elementwise_loop args (some t.strides) (some t) nb by
        simp [elementwise_loop]]
      rw [hrec, if_congr hcond.symm rfl rfl]
    | number n =>
      have hrec := ih (some (nb.getD n)) (by simpa [firstTensor] using hfirst)
        (fun x hx => hsh x (by simp [hx])) (fun x hx => hdt x (by simp [hx]))
        (fun x hx => hdev x (by simp [hx]))
      rw [show elementwise_loop (.number n :: args) none none nb
          = elementwise_loop args none none (some (nb.getD n)) by
        simp [elementwise_loop]]
      exact hrec

/-- Claim C2, corrected: when `_elementwise_meta` succeeds on arguments with
at least one tensor, the result descriptor's strides are contiguous exactly
when some tensor argument's strides differ from the first-seen tensor's, or
when the first-seen tensor is NONEMPTY (`numel > 0`, not empty as the claim
says) and has a zero stride anywhere; otherwise the first-seen tensor's
strides are inherited. -/
theorem elementwise_meta_strides (args : List ElemArg)
    (tp : ELEMENTWISE_PRIM_TYPE_PROMOTION_KIND) (first tm : TensorMeta)
    (hfirst : firstTensor args = some first)
    (hok : _elementwise_meta args tp = .ok tm) :
    tm.strides = if (∃ t ∈ tensorsOf args, t.strides ≠ first.strides)
        ∨ (0 ∈ first.strides ∧ 0 < first.numel) then
      make_contiguous_strides_for first.shape
    else first.strides := by
  obtain ⟨ts, hts⟩ : ∃ ts, tensorsOf args = first :: ts := by
    unfold firstTensor at hfirst
    cases h : tensorsOf args with
    | nil => rw [h] at hfirst; exact absurd hfirst (by simp)
    | cons x l =>
      rw [h] at hfirst
      exact ⟨l, by rw [show x = first from by simpa using hfirst]⟩
  have hne : 0 < args.length := by
    cases args with
    | nil => simp [tensorsOf] at hts
    | cons a l => simp
  unfold _elementwise_meta at hok
  rw [if_pos hne, except_pure, except_bind_ok] at hok
  cases hdev : check_same_device args true with
  | error e => rw [hdev, except_bind_error] at hok; exact absurd hok (by simp)
  | ok u =>
    rw [hdev, except_bind_ok] at hok
    cases hsh : check_same_shape args with
    | error e => rw [hsh, except_bind_error] at hok; exact absurd hok (by simp)
    | ok u2 =>
      rw [hsh, except_bind_ok] at hok
      cases hdt : check_same_dtype args with
      | error e => rw [hdt, except_bind_error] at hok; exact absurd hok (by simp)
      | ok u3 =>
        rw [hdt, except_bind_ok] at hok
        have hloop := elementwise_loop_none first args none hfirst
          (check_same_shape_forall args first ts hts hsh)
          (check_same_dtype_forall args first ts hts hdt)
          (check_same_device_forall args first ts hts hdev)
        rw [hloop] at hok
        have htm := Except.ok.inj hok
        rw [← htm, apply_ite TensorMeta.strides]

/-- Claim C2, counterexample to the claim as stated: a single nonempty tensor
of shape (2,) with strides (0,) — not empty, no stride disagreement — gets
contiguous strides (1,) from the source (whose condition is
`tensor.numel() > 0`), while the claim's rule (contiguous only when strides
differ or the first tensor is EMPTY with a zero stride) would inherit (0,). -/
theorem elementwise_strides_claim_cex :
    (_elementwise_meta [.tensor ⟨[2], [0], .float32, .cpu⟩] .DEFAULT).map
        TensorMeta.strides = .ok [1]
    ∧ claimedElementwiseStrides [.tensor ⟨[2], [0], .float32, .cpu⟩]
        ⟨[2], [0], .float32, .cpu⟩ = [0]
    ∧ ([1] : List Nat) ≠ [0] :=
  ⟨rfl, by decide, by decide⟩

/-- Zipping against an extended right list is unchanged when the left list is
at most as long as the unextended right list. -/
theorem zip_append_right {α β : Type} (l1 : List α) :
    ∀ (l2 : List β) (e : List β), l1.length ≤ l2.length →
    l1.zip (l2 ++ e) = l1.zip l2 := by
  induction l1 with
  | nil => intro l2 e _; simp
  | cons a l ih =>
    intro l2 e h
    cases l2 with
    | nil => simp at h
    | cons b l2 =>
      simp only [List.cons_append, List.zip_cons_cons]
      rw [ih l2 e (by simpa using h)]

/-- Claim C10: `_concatenate_meta` compares each tensor's shape with the
first tensor's only through `zip`, i.e. up to the shorter of the two ranks,
and never checks rank equality — appending extra trailing dimensions to a
tensor at least as long as the first changes nothing — and consequently
concatenating shapes (2,3) and (2,3,4) along dimension 0 validates
successfully, producing shape (4,3). -/
theorem concatenate_rank_unchecked :
    (∀ (t0 t : TensorMeta) (dim : Int) (extra : List Nat),
      t0.shape.length ≤ t.shape.length →
      _concatenate_meta [t0, t] dim
        = _concatenate_meta [t0, ⟨t.shape ++ extra, t.strides, t.dtype, t.device⟩] dim)
    ∧ _concatenate_meta [⟨[2, 3], [3, 1], .float32, .cpu⟩,
        ⟨[2, 3, 4], [12, 4, 1], .float32, .cpu⟩] 0
      = .ok ⟨[4, 3], [3, 1], .float32, .cpu⟩ := by
  constructor
  · intro t0 t dim extra h
    simp only [_concatenate_meta, concat_loop]
    rw [zip_append_right t0.shape t.shape extra h]
    rfl
  · rfl

/-- Claim C10, witness for the trailing-dimension invariance at a concrete
input. -/
theorem concatenate_rank_unchecked_witness :
    _concatenate_meta [⟨[2, 3], [3, 1], .float32, .cpu⟩,
        ⟨[2, 3], [3, 1], .float32, .cpu⟩] 0
      = _concatenate_meta [⟨[2, 3], [3, 1], .float32, .cpu⟩,
        ⟨[2, 3] ++ [4], [3, 1], .float32, .cpu⟩] 0 :=
  concatenate_rank_unchecked.1 ⟨[2, 3], [3, 1], .float32, .cpu⟩
    ⟨[2, 3], [3, 1], .float32, .cpu⟩ 0 [4] (by decide)

/-- The ascending-sequence check succeeds on a strictly ascending list whose
entries are below the rank and above the accumulator. -/
theorem ascending_check_ok (rank : Nat) (l : List Int) :
    ∀ acc : Int, List.Pairwise (fun x y => x < y) l →
    (∀ x ∈ l, x < (rank : Int)) → (∀ x ∈ l, acc < x) →
    ascending_check rank l acc = .ok () := by
  induction l with
  | nil => intro acc _ _ _; rfl
  | cons d rest ih =>
    intro acc hpw hrk hacc
    have h1 : acc < d := hacc d (List.mem_cons_self _ _)
    have h2 : d < (rank : Int) := hrk d (List.mem_cons_self _ _)
    rw [show ascending_check rank (d :: rest) acc = ascending_check rank rest d from by
      simp [ascending_check, h1, h2]]
    exact ih d (List.pairwise_cons.mp hpw).2
      (fun x hx => hrk x (List.mem_cons_of_mem _ hx))
      (fun x hx => (List.pairwise_cons.mp hpw).1 x hx)

/-- The broadcastability check succeeds when every original dimension is 1 or
matches its target length. -/
theorem compat_check_ok (ashape shape : List Nat) (l : List Int) :
    ∀ idx : Nat,
    (∀ k, k < l.length → ashape.getD (idx + k) 0 = 1
      ∨ ashape.getD (idx + k) 0 = shape.getD ((l.getD k 0).toNat) 0) →
    compat_check ashape shape l idx = .ok () := by
  induction l with
  | nil => intro idx _; rfl
  | cons d rest ih =>
    intro idx h
    have h0 : ashape.getD idx 0 = 1 ∨ ashape.getD idx 0 = shape.getD d.toNat 0 := by
      simpa using h 0 (by simp)
    rw [show compat_check ashape shape (d :: rest) idx
        = compat_check ashape shape rest (idx + 1) from by
      simp only [compat_check]
      rw [if_pos h0]]
    refine ih (idx + 1) (fun k hk => ?_)
    have hK := h (k + 1) (by simpa using Nat.succ_lt_succ hk)
    simpa [Nat.add_assoc, Nat.add_comm 1 k] using hK

/-- Characterization of the stride-construction loop of
`_broadcast_in_dim_meta` over a run of consecutive positions: with
`broadcast_dimensions` strictly ascending and `original_idx` equal to the
number of mapped positions already passed, each mapped position `j` receives
the original stride at the index of `j` in `broadcast_dimensions`, and each
unmapped position receives stride 0. -/
theorem bcast_go_char (astrides : List Nat) (bdims : List Int)
    (hsorted : List.Pairwise (fun x y => x < y) bdims) :
    ∀ (n s oi : Nat),
    (∀ d ∈ bdims.take oi, d < (s : Int)) →
    (∀ d ∈ bdims.drop oi, (s : Int) ≤ d) →
    bcast_strides_go astrides bdims (List.range' s n) oi
      = (List.range' s n).map (fun (j : Nat) => if (j : Int) ∈ bdims then
          astrides.getD (List.indexOf (j : Int) bdims) 0 else 0) := by
  intro n
  induction n with
  | zero =>
    intro s oi _ _
    simp [bcast_strides_go]
  | succ n ih =>
    intro s oi hlt hge
    rw [List.range'_succ]
    by_cases hmem : ((s : Int) ∈ bdims)
    · have hdropmem : (s : Int) ∈ bdims.drop oi := by
        have hall : (s : Int) ∈ bdims.take oi ++ bdims.drop oi := by
          rw [List.take_append_drop]
          exact hmem
        rcases List.mem_append.mp hall with hin | hin
        · exact absurd (hlt _ hin) (lt_irrefl _)
        · exact hin
      have hoilt : oi < bdims.length := by
        by_contra hcon
        rw [List.drop_eq_nil_of_le (by omega)] at hdropmem
        exact absurd hdropmem (by simp)
      have hdec := List.drop_eq_getElem_cons (l := bdims) (n := oi) hoilt
      have hpw2 : List.Pairwise (fun x y => x < y) (bdims.drop oi) :=
        hsorted.sublist (List.drop_sublist _ _)
      have hgetoi : bdims[oi] = (s : Int) := by
        have hdm := hdropmem
        have hpw3 := hpw2
        rw [hdec] at hdm hpw3
        rcases List.mem_cons.mp hdm with heq | hin
        · exact heq.symm
        · have h1 : bdims[oi] < (s : Int) := (List.pairwise_cons.mp hpw3).1 _ hin
          have h2 : (s : Int) ≤ bdims[oi] := hge _ (by rw [hdec]; exact List.mem_cons_self _ _)
          omega
      have hidx : List.indexOf (s : Int) bdims = oi := by
        have hnotin : (s : Int) ∉ bdims.take oi :=
          fun hin => absurd (hlt _ hin) (lt_irrefl _)
        conv_lhs => rw [← List.take_append_drop oi bdims, hdec, hgetoi]
        rw [List.indexOf_append_of_not_mem hnotin, List.indexOf_cons_self,
          List.length_take]
        omega
      rw [show bcast_strides_go astrides bdims (s :: List.range' (s + 1) n) oi
          = astrides.getD oi 0
            :: bcast_strides_go astrides bdims (List.range' (s + 1) n) (oi + 1) from by
        simp [bcast_strides_go, hmem]]
      rw [List.map_cons, if_pos hmem, hidx]
      congr 1
      refine ih (s + 1) (oi + 1) ?_ ?_
      · intro d hdin
        rw [List.take_succ, List.getElem?_eq_getElem hoilt, hgetoi] at hdin
        rcases List.mem_append.mp hdin with hin | hin
        · have := hlt _ hin
          push_cast
          omega
        · have hds : d = (s : Int) := by simpa using hin
          push_cast
          omega
      · intro d hdin
        have hpw3 := hpw2
        rw [hdec, hgetoi] at hpw3
        have := (List.pairwise_cons.mp hpw3).1 _ hdin
        push_cast
        omega
    · rw [show bcast_strides_go astrides bdims (s :: List.range' (s + 1) n) oi
          = 0 :: bcast_strides_go astrides bdims (List.range' (s + 1) n) oi from by
        simp [bcast_strides_go, hmem]]
      rw [List.map_cons, if_neg hmem]
      congr 1
      refine ih (s + 1) oi ?_ ?_
      · intro d hdin
        have := hlt _ hdin
        push_cast
        omega
      · intro d hdin
        have h1 := hge _ hdin
        have h2 : d ≠ (s : Int) :=
          fun he => hmem (he ▸ (List.drop_sublist oi bdims).subset hdin)
        push_cast
        omega

/-- Claim C5: on every valid call — target rank at least the input rank,
`broadcast_dimensions` strictly ascending with length equal to the input rank
and entries indexing within the target shape, and every mapped original
dimension of length 1 or equal to its target length — the result descriptor
has the target shape, carries the input's original stride at each mapped
position and stride 0 at each newly introduced position, and inherits the
input's dtype and device. -/
theorem broadcast_in_dim_meta_spec (a : TensorMeta) (shape : List Nat)
    (bdims : List Int)
    (hlen : bdims.length = a.shape.length)
    (hrank : a.shape.length ≤ shape.length)
    (hasc : List.Pairwise (fun x y => x < y) bdims)
    (hrange : ∀ d ∈ bdims, 0 ≤ d ∧ d < (shape.length : Int))
    (hcompat : ∀ i, i < bdims.length →
      a.shape.getD i 0 = 1 ∨ a.shape.getD i 0 = shape.getD (bdims.getD i 0).toNat 0) :
    _broadcast_in_dim_meta a shape bdims =
      .ok ⟨shape,
        (List.range shape.length).map (fun (j : Nat) => if (j : Int) ∈ bdims then
          a.strides.getD (List.indexOf (j : Int) bdims) 0 else 0),
        a.dtype, a.device⟩ := by
  simp only [_broadcast_in_dim_meta, if_pos hlen.symm, if_pos hrank,
    ascending_check_ok shape.length bdims (-1) hasc
      (fun x hx => (hrange x hx).2)
      (fun x hx => by have := (hrange x hx).1; omega),
    compat_check_ok a.shape shape bdims 0
      (fun k hk => by simpa using hcompat k hk),
    except_pure, except_bind_ok]
  rw [List.range_eq_range',
    bcast_go_char a.strides bdims hasc shape.length 0 0
      (by simp)
      (fun d hd => by simpa using (hrange d (by simpa using hd)).1)]

/-- Claim C5, witness: input shape (3,) with stride (1,), target shape (2,3),
broadcast dimensions (1,): the result is shape (2,3) with strides (0,1) — the
original stride at the mapped position, zero at the new position. -/
theorem broadcast_in_dim_meta_witness :
    _broadcast_in_dim_meta ⟨[3], [1], .float32, .cpu⟩ [2, 3] [1]
      = .ok ⟨[2, 3], [0, 1], .float32, .cpu⟩ :=
  (broadcast_in_dim_meta_spec ⟨[3], [1], .float32, .cpu⟩ [2, 3] [1]
    (by decide) (by decide) (by decide) (by decide) (by decide)).trans (by rfl)

/-- Claim C2, witness for the corrected statement: a single tensor of shape
(2,3) with its contiguous strides (3,1) — no disagreement, no zero stride —
inherits its own strides. -/
theorem elementwise_meta_strides_witness :
    (⟨[2, 3], [3, 1], .float32, .cpu⟩ : TensorMeta).strides =
      if (∃ t ∈ tensorsOf [.tensor ⟨[2, 3], [3, 1], .float32, .cpu⟩],
            t.strides ≠ (⟨[2, 3], [3, 1], .float32, .cpu⟩ : TensorMeta).strides)
          ∨ (0 ∈ (⟨[2, 3], [3, 1], .float32, .cpu⟩ : TensorMeta).strides
              ∧ 0 < (⟨[2, 3], [3, 1], .float32, .cpu⟩ : TensorMeta).numel) then
        make_contiguous_strides_for (⟨[2, 3], [3, 1], .float32, .cpu⟩ : TensorMeta).shape
      else (⟨[2, 3], [3, 1], .float32, .cpu⟩ : TensorMeta).strides :=
  elementwise_meta_strides [.tensor ⟨[2, 3], [3, 1], .float32, .cpu⟩] .DEFAULT
    ⟨[2, 3], [3, 1], .float32, .cpu⟩ ⟨[2, 3], [3, 1], .float32, .cpu⟩ rfl rfl

/-- Claim C1: for every primitive built by the factory, a call whose
arguments violate a declared precondition (the meta function fails) raises
exactly the validation error, leaves the mutable tensor state untouched (so
INPLACE primitives never partially mutate their target), and produces the
trace `[metaCall]` — in particular the default execution backend is never
invoked. -/
theorem prim_call_validation_failure {σ ρ : Type} (handleTF : σ → σ × ρ)
    (meta : σ → Except PErr Unit) (impl_aten : σ → σ × ρ) (s : σ) (e : PErr)
    (hmeta : meta s = .error e) :
    (prim_call false handleTF meta impl_aten s).result = .error e
    ∧ (prim_call false handleTF meta impl_aten s).state = s
    ∧ (prim_call false handleTF meta impl_aten s).events = [.metaCall]
    ∧ PrimEvent.implCall ∉ (prim_call false handleTF meta impl_aten s).events := by
  simp [prim_call, hmeta]

/-- Claim C1, witness: calling the INPLACE primitive `copy_to` on an `int64`
destination and a `float32` source raises the cast-safety validation error,
leaves both tensors untouched and never reaches the backend. -/
theorem prim_call_validation_failure_witness :
    (prim_call false (fun p => (p, p.1))
        (fun p : TensorMeta × TensorMeta => (_copy_to_meta p.1 p.2).map fun _ => ())
        (fun p => (p, p.1))
        ((⟨[2], [1], .int64, .cpu⟩ : TensorMeta), (⟨[2], [1], .float32, .cpu⟩ : TensorMeta))).result
      = .error .castSafety
    ∧ (prim_call false (fun p => (p, p.1))
        (fun p : TensorMeta × TensorMeta => (_copy_to_meta p.1 p.2).map fun _ => ())
        (fun p => (p, p.1))
        ((⟨[2], [1], .int64, .cpu⟩ : TensorMeta), (⟨[2], [1], .float32, .cpu⟩ : TensorMeta))).state
      = ((⟨[2], [1], .int64, .cpu⟩ : TensorMeta), (⟨[2], [1], .float32, .cpu⟩ : TensorMeta))
    ∧ (prim_call false (fun p => (p, p.1))
        (fun p : TensorMeta × TensorMeta => (_copy_to_meta p.1 p.2).map fun _ => ())
        (fun p => (p, p.1))
        ((⟨[2], [1], .int64, .cpu⟩ : TensorMeta), (⟨[2], [1], .float32, .cpu⟩ : TensorMeta))).events
      = [.metaCall]
    ∧ PrimEvent.implCall ∉ (prim_call false (fun p => (p, p.1))
        (fun p : TensorMeta × TensorMeta => (_copy_to_meta p.1 p.2).map fun _ => ())
        (fun p => (p, p.1))
        ((⟨[2], [1], .int64, .cpu⟩ : TensorMeta), (⟨[2], [1], .float32, .cpu⟩ : TensorMeta))).events :=
  prim_call_validation_failure _ _ _ _ .castSafety rfl

/-- Claim C8: when an argument participates in the operator-overload
protocol, the call delegates entirely to the protocol handler (the result and
the state are the handler's) and neither the validation function nor the
execution backend is ever invoked. -/
theorem prim_call_torch_function_first {σ ρ : Type} (handleTF : σ → σ × ρ)
    (meta : σ → Except PErr Unit) (impl_aten : σ → σ × ρ) (s : σ) :
    (prim_call true handleTF meta impl_aten s).result = .ok (handleTF s).2
    ∧ (prim_call true handleTF meta impl_aten s).state = (handleTF s).1
    ∧ PrimEvent.metaCall ∉ (prim_call true handleTF meta impl_aten s).events
    ∧ PrimEvent.implCall ∉ (prim_call true handleTF meta impl_aten s).events := by
  simp [prim_call]

/-- Claim C4 (code bug): the claim says `div` truncates whenever both
operands are integral or boolean, but `_div_aten` tests
`isinstance(a, (bool, int))` — the Python scalar type of the FIRST argument —
so two `int64` tensors get true (floating-point) division, while an `int`
scalar with a floating tensor gets truncating division. -/
theorem div_aten_dispatch_ignores_dtype :
    _div_aten (.tensor ⟨[2], [1], .int64, .cpu⟩) (.tensor ⟨[2], [1], .int64, .cpu⟩)
      = .true_div
    ∧ _div_aten (.number .int) (.tensor ⟨[2], [1], .float32, .cpu⟩) = .trunc :=
  ⟨rfl, rfl⟩

/-- Claim C3 (code bug): on the contiguous tensor of shape (2,2), strides
(2,1) — whose stride-nesting condition `stride[0] = stride[1]*shape[1]`
holds — collapsing [0,2) yields strides (2) (the source multiplies ALL the
collapsed strides together instead of keeping the innermost one, and appends
`shape[end:]` in place of `strides[end:]`), and re-splitting with the matching
outer length 2 raises IndexError because `_split_dim_meta` iterates
`for idx in a.shape` over the shape's VALUES; the round trip never reproduces
the original shape and strides. -/
theorem collapse_split_roundtrip_fails :
    _collapse_view_meta ⟨[2, 2], [2, 1], .float32, .cpu⟩ 0 2
      = .ok ⟨[4], [2], .float32, .cpu⟩
    ∧ _split_dim_meta ⟨[4], [2], .float32, .cpu⟩ 0 2 = .error .indexError :=
  ⟨rfl, rfl⟩

/-- Claim C6: `split_dim` fails with the spec's ShapeError (the exactness
assertion of the validation function) — producing no result descriptor —
whenever the dimension length is not evenly divisible by the requested outer
length. -/
theorem split_dim_nonexact_fails (a : TensorMeta) (dim outer : Int)
    (hdim : 0 ≤ dim ∧ dim < (a.shape.length : Int))
    (houter : 0 < outer)
    (hndvd : ¬ (outer ∣ (a.shape.getD dim.toNat 0 : Int))) :
    _split_dim_meta a dim outer = .error .shapeError := by
  have h0 : ¬ (outer = 0) := by omega
  have hmod : ¬ ((a.shape.getD dim.toNat 0 : Int) % outer = 0) :=
    fun h => hndvd (Int.dvd_of_emod_eq_zero h)
  unfold _split_dim_meta validate_idx validate_dim_length
  simp only [if_pos hdim, if_pos houter.le, if_neg h0, if_neg hmod]
  rfl

/-- Claim C6, witness: splitting shape (5,) at dimension 0 with outer length
2 fails with the ShapeError. -/
theorem split_dim_nonexact_witness :
    _split_dim_meta ⟨[5], [1], .float32, .cpu⟩ 0 2 = .error .shapeError :=
  split_dim_nonexact_fails ⟨[5], [1], .float32, .cpu⟩ 0 2 (by decide) (by decide)
    (by decide)

/-- Claim C7: `copy_to(a, b)` fails with the cast-safety error exactly when
`b`'s dtype category is strictly wider than `a`'s in the promotion ordering
(so promoting `b` into `a`'s category would change `a`'s category, e.g. a
floating source into an integral destination), otherwise fails with the
size-mismatch error when the element counts differ, and otherwise succeeds
returning the destination `a`. -/
theorem copy_to_meta_cases (a b : TensorMeta) :
    _copy_to_meta a b =
      if catRank (dtype_to_type a.dtype) < catRank (dtype_to_type b.dtype) then
        .error .castSafety
      else if a.numel ≠ b.numel then .error .sizeMismatch
      else .ok a := by
  have h : (dtype_to_type a.dtype
        ≠ get_higher_type (dtype_to_type a.dtype) (dtype_to_type b.dtype))
      ↔ catRank (dtype_to_type a.dtype) < catRank (dtype_to_type b.dtype) := by
    cases dtype_to_type a.dtype <;> cases dtype_to_type b.dtype <;> decide
  by_cases hc : catRank (dtype_to_type a.dtype) < catRank (dtype_to_type b.dtype)
  · simp only [_copy_to_meta, if_pos (h.mpr hc), if_pos hc]
  · have hne : ¬ (dtype_to_type a.dtype
        ≠ get_higher_type (dtype_to_type a.dtype) (dtype_to_type b.dtype)) :=
      fun hh => hc (h.mp hh)
    simp only [_copy_to_meta, if_neg hne, if_neg hc]

/-- Claim C9: whenever the reduced output shape is computable, the result
descriptor's dtype of the metas bound to `sum`, `prod`, `amax` and `amin`
equals the input dtype, while the metas bound to `all` and `any` always
produce a boolean dtype, regardless of the input dtype. -/
theorem reduction_meta_output_dtype (inp : TensorMeta) (dims : List Nat) :
    (sum_meta inp dims).map TensorMeta.dtype
        = (compute_reduction_output_shape inp.shape dims).map (fun _ => inp.dtype)
    ∧ (prod_meta inp dims).map TensorMeta.dtype
        = (compute_reduction_output_shape inp.shape dims).map (fun _ => inp.dtype)
    ∧ (amax_meta inp dims).map TensorMeta.dtype
        = (compute_reduction_output_shape inp.shape dims).map (fun _ => inp.dtype)
    ∧ (amin_meta inp dims).map TensorMeta.dtype
        = (compute_reduction_output_shape inp.shape dims).map (fun _ => inp.dtype)
    ∧ (all_meta inp dims).map TensorMeta.dtype
        = (compute_reduction_output_shape inp.shape dims).map (fun _ => Dtype.bool)
    ∧ (any_meta inp dims).map TensorMeta.dtype
        = (compute_reduction_output_shape inp.shape dims).map (fun _ => Dtype.bool) := by
  refine ⟨?_, ?_, ?_, ?_, ?_, ?_⟩ <;>
    cases h : compute_reduction_output_shape inp.shape dims <;>
      simp [sum_meta, prod_meta, amax_meta, amin_meta, all_meta, any_meta,
        _reduction_meta, _bool_return_reduction_meta, h, Except.map]

end TorchPrims
